import Mathlib

/-!
# Rescale Job Management Dashboard — verification of the frontend client layer

Shallow embedding of the React/TanStack-Query frontend (`src/frontend/src`):
the API layer (`api/jobs.ts`), the `CreateJobForm`, `JobList` and `JobCard`
components, and the shared `QueryClient` configuration (`App.tsx`).

Modelling conventions:
* ISO-8601 timestamp strings are represented by their `Date.getTime()`
  value (an integer number of milliseconds); `Date` parsing of the ISO
  strings produced by the backend is order-preserving, so order claims
  are unaffected.
* TypeScript `T | null` fields become `Option T`.
* React state updates plus fire-and-forget mutation calls are modelled as
  pure functions returning the new state together with the request (if any)
  that the handler issues.
-/

namespace Rescale

/-- The four valid job status values (`types.ts`, `StatusType`). -/
inductive StatusType where
  | PENDING
  | RUNNING
  | COMPLETED
  | FAILED
deriving DecidableEq, Repr

/-- `ALL_STATUSES` from `types.ts`: all valid statuses as an ordered array. -/
def ALL_STATUSES : List StatusType :=
  [StatusType.PENDING, StatusType.RUNNING, StatusType.COMPLETED, StatusType.FAILED]

/-- `STATUS_LABELS` from `types.ts`: display label for each status. -/
def STATUS_LABELS : StatusType → String
  | StatusType.PENDING => "Pending"
  | StatusType.RUNNING => "Running"
  | StatusType.COMPLETED => "Completed"
  | StatusType.FAILED => "Failed"

/-- `STATUS_COLORS` from `JobCard.tsx`: badge CSS classes for each status
(a total mapping, written out so Tailwind can detect the class names). -/
def STATUS_COLORS : StatusType → String
  | StatusType.PENDING => "bg-yellow-100 text-yellow-800"
  | StatusType.RUNNING => "bg-blue-100   text-blue-800"
  | StatusType.COMPLETED => "bg-green-100  text-green-800"
  | StatusType.FAILED => "bg-red-100    text-red-800"

/-- The wire value of a status, as used in the `status` query parameter and
in `JobStatus.StatusType` on the backend. -/
def statusKey : StatusType → String
  | StatusType.PENDING => "PENDING"
  | StatusType.RUNNING => "RUNNING"
  | StatusType.COMPLETED => "COMPLETED"
  | StatusType.FAILED => "FAILED"

/-- A job as returned by the API (`types.ts`, `Job`).  `created_at` and
`updated_at` hold the `Date.getTime()` value of the ISO timestamp string.
`current_status` is `none` only in the defensive case where a job has no
status rows. -/
structure Job where
  id : Nat
  name : String
  created_at : Int
  updated_at : Int
  current_status : Option StatusType
deriving DecidableEq, Repr

/-- A single entry from `GET /api/jobs/<id>/history/` (`types.ts`,
`JobStatusEntry`); `timestamp` is the `Date.getTime()` value. -/
structure JobStatusEntry where
  id : Nat
  status_type : StatusType
  timestamp : Int
deriving DecidableEq, Repr

/-- Wrapper returned by paginated list endpoints (`types.ts`,
`PaginatedResponse`). -/
structure PaginatedResponse where
  count : Nat
  next : Option String
  previous : Option String
  results : List Job
deriving DecidableEq, Repr

/-! ## CreateJobForm (`CreateJobForm.tsx`): submit-time validation -/

/-- The WhiteSpace / LineTerminator characters removed by JavaScript
`String.prototype.trim` (the code points that occur in practice in a job
name input: space, tab, LF, CR, VT, FF, NBSP). -/
def isJsWhitespace (c : Char) : Bool :=
  c == ' ' || c == '\t' || c == '\n' || c == '\r' ||
  c == Char.ofNat 11 || c == Char.ofNat 12 || c == Char.ofNat 160

/-- Character-level trim: drop whitespace from both ends. -/
def trimChars (l : List Char) : List Char :=
  ((l.dropWhile isJsWhitespace).reverse.dropWhile isJsWhitespace).reverse

/-- JavaScript `name.trim()`. -/
def jsTrim (s : String) : String :=
  String.mk (trimChars s.data)

/-- Result of one `CreateJobForm.handleSubmit` call: the `validationError`
state after the call, and the payload of the `createJob` mutation if one was
issued (`none` means `mutation.mutate` was never invoked, so no create
request is sent and no rows are appended anywhere). -/
structure SubmitOutcome where
  validationError : String
  createCall : Option String
deriving DecidableEq, Repr

/-- `CreateJobForm.handleSubmit`: if `!name.trim()` (the trimmed name is the
empty string, which is falsy) set the validation error and return without
mutating; otherwise clear the validation error and call
`mutation.mutate({ name: name.trim() })`. -/
def handleSubmit (name : String) : SubmitOutcome :=
  if jsTrim name = "" then
    { validationError := "Job name cannot be empty", createCall := none }
  else
    { validationError := "", createCall := some (jsTrim name) }

theorem dropWhile_forall_of_forall {p : Char → Bool} {l : List Char}
    (h : ∀ c ∈ l.dropWhile p, p c) : ∀ c ∈ l, p c := by
  intro c hc
  rcases List.mem_append.mp ((List.takeWhile_append_dropWhile p l) ▸ hc) with h1 | h2
  · exact List.mem_takeWhile_imp h1
  · exact h c h2

theorem trimChars_eq_nil_iff (l : List Char) :
    trimChars l = [] ↔ l.all isJsWhitespace = true := by
  unfold trimChars
  rw [List.reverse_eq_nil_iff, List.dropWhile_eq_nil_iff, List.all_eq_true]
  constructor
  · intro h
    refine dropWhile_forall_of_forall (p := isJsWhitespace) ?_
    intro c hc
    exact h c (List.mem_reverse.mpr hc)
  · intro h c hc
    exact h c (List.Sublist.mem (List.mem_reverse.mp hc) (List.dropWhile_sublist _))

theorem jsTrim_eq_empty_iff (s : String) :
    jsTrim s = "" ↔ s.data.all isJsWhitespace = true := by
  unfold jsTrim
  rw [← trimChars_eq_nil_iff]
  constructor
  · intro h
    have := congrArg String.data h
    simpa using this
  · intro h
    rw [h]

/-- C3: submitting the create-job form with a name that is empty or
whitespace-only after trimming sets the validation error
`Job name cannot be empty` and never invokes the `createJob` mutation
(no create request, so no rows are appended anywhere); any name with a
non-empty trim clears the validation error and calls `createJob` with the
trimmed name. -/
theorem createJobForm_validation (name : String) :
    (handleSubmit name =
        { validationError := "Job name cannot be empty", createCall := none } ↔
      name.data.all isJsWhitespace = true) ∧
    (name.data.all isJsWhitespace ≠ true →
      handleSubmit name = { validationError := "", createCall := some (jsTrim name) } ∧
        jsTrim name ≠ "") := by
  constructor
  · constructor
    · intro h
      by_contra hw
      have hne : jsTrim name ≠ "" := fun he => hw ((jsTrim_eq_empty_iff name).mp he)
      simp [handleSubmit, hne] at h
    · intro hw
      have he : jsTrim name = "" := (jsTrim_eq_empty_iff name).mpr hw
      simp [handleSubmit, he]
  · intro hw
    have hne : jsTrim name ≠ "" := fun he => hw ((jsTrim_eq_empty_iff name).mp he)
    exact ⟨by simp [handleSubmit, hne], hne⟩

/-- Witness for C3: the whitespace-only name `"  "` (two spaces) fails
validation with the documented message and issues no create call. -/
theorem createJobForm_validation_witness :
    ("  ".data.all isJsWhitespace = true) ∧
      handleSubmit "  " =
        { validationError := "Job name cannot be empty", createCall := none } :=
  ⟨by decide, ((createJobForm_validation "  ").1).mpr (by decide)⟩

/-! ## JobCard (`JobCard.tsx`): status badge, status dropdown, history panel -/

/-- The status badge of a job card (`JobCard.tsx`,
`{job.current_status && <span className={STATUS_COLORS[...]}>…}`): rendered
with its colour class and label exactly when `current_status` is non-null
(the status strings are non-empty, hence truthy). -/
def statusBadge (j : Job) : Option (String × String) :=
  j.current_status.map (fun st => (STATUS_COLORS st, STATUS_LABELS st))

/-- The options offered by the change-status dropdown (`JobCard.tsx`,
`ALL_STATUSES.filter((s) => s !== job.current_status)`).  `s` is a status
value and `job.current_status` is a status or `null`; the strict inequality
holds unless `current_status` equals `s`. -/
def statusOptions (j : Job) : List StatusType :=
  ALL_STATUSES.filter (fun s => j.current_status ≠ some s)

/-- C10: for every job value, including the defensive `current_status = null`
case, the card renders totally (`statusBadge` and `statusOptions` are total
functions): the badge is rendered iff `current_status` is non-null, and the
dropdown offers exactly the statuses different from `current_status` — all
four when it is null — so the current status is never offered as a
transition. -/
theorem jobCard_badge_and_options (j : Job) :
    ((statusBadge j).isSome ↔ j.current_status ≠ none) ∧
    (∀ s : StatusType, s ∈ statusOptions j ↔ j.current_status ≠ some s) ∧
    (j.current_status = none → statusOptions j = ALL_STATUSES) ∧
    (∀ c : StatusType, j.current_status = some c →
      c ∉ statusOptions j ∧ ∀ s : StatusType, s ≠ c → s ∈ statusOptions j) := by
  refine ⟨?_, ?_, ?_, ?_⟩
  · cases h : j.current_status <;> simp [statusBadge, h]
  · intro s
    have hs : s ∈ ALL_STATUSES := by cases s <;> decide
    simp [statusOptions, List.mem_filter, hs]
  · intro h
    simp [statusOptions, h, List.filter_eq_self]
  · intro c hc
    constructor
    · simp [statusOptions, List.mem_filter, hc]
    · intro s hs
      have hmem : s ∈ ALL_STATUSES := by cases s <;> decide
      simp [statusOptions, List.mem_filter, hc, hmem]
      exact fun he => hs he.symm

/-- Witness for C10: a job with `current_status = null` renders all four
statuses as options, and a PENDING job is never offered PENDING. -/
theorem jobCard_badge_and_options_witness :
    statusOptions ⟨7, "X", 0, 0, none⟩ = ALL_STATUSES ∧
      StatusType.PENDING ∉ statusOptions ⟨8, "Y", 0, 0, some StatusType.PENDING⟩ :=
  ⟨(jobCard_badge_and_options _).2.2.1 rfl,
   ((jobCard_badge_and_options _).2.2.2 StatusType.PENDING rfl).1⟩

/-- The three mutually exclusive renderings of the open history panel
(`JobCard.tsx` lines 127–148). -/
inductive HistoryPanel where
  | loading
  | entries (l : List JobStatusEntry)
  | noChanges
deriving DecidableEq, Repr

/-- The open history panel (`JobCard.tsx`): while the query is loading show
the loading text; once data is present, if `history.slice(1)` is non-empty
render `[...history].slice(1).reverse()` (drop the initial status, newest
first), otherwise show `No status changes yet.`. -/
def renderHistoryPanel (historyLoading : Bool) (history : Option (List JobStatusEntry)) :
    HistoryPanel :=
  if historyLoading then HistoryPanel.loading
  else
    match history with
    | some h =>
        if 0 < (h.drop 1).length then HistoryPanel.entries ((h.drop 1).reverse)
        else HistoryPanel.noChanges
    | none => HistoryPanel.noChanges

/-- The `enabled` flag of the history query (`JobCard.tsx`,
`useQuery({ queryKey: ['jobs', job.id, 'history'], enabled: showHistory })`):
the request is issued only while the panel is open. -/
def historyQueryEnabled (showHistory : Bool) : Bool := showHistory

/-- C9: for a fetched history list (oldest first), the panel omits the first
entry and renders the rest reversed (newest first); it shows
`No status changes yet` iff the fetched history has length at most one; a
history sorted by ascending timestamp is displayed with descending
timestamps; and the history request is enabled exactly while the panel is
open. -/
theorem jobCard_history_panel (h : List JobStatusEntry) :
    (renderHistoryPanel false (some h) = HistoryPanel.noChanges ↔ h.length ≤ 1) ∧
    (1 < h.length →
      renderHistoryPanel false (some h) = HistoryPanel.entries ((h.drop 1).reverse)) ∧
    (h.Pairwise (fun a b => a.timestamp ≤ b.timestamp) →
      ((h.drop 1).reverse).Pairwise (fun a b => b.timestamp ≤ a.timestamp)) ∧
    (∀ sh : Bool, historyQueryEnabled sh = sh) := by
  refine ⟨?_, ?_, ?_, fun _ => rfl⟩
  · by_cases hl : 0 < (h.drop 1).length
    · have : ¬ h.length ≤ 1 := by
        rw [List.length_drop] at hl
        omega
      simp [renderHistoryPanel, hl, this]
    · have : h.length ≤ 1 := by
        rw [List.length_drop] at hl
        omega
      simp [renderHistoryPanel, hl, this]
  · intro hl
    have : 0 < (h.drop 1).length := by
      rw [List.length_drop]
      omega
    simp [renderHistoryPanel, this, hl]
  · intro hp
    rw [List.pairwise_reverse]
    exact List.Pairwise.drop hp

/-- Witness for C9: a two-entry history (initial PENDING then RUNNING)
renders exactly the RUNNING entry, newest first. -/
theorem jobCard_history_panel_witness :
    (1 < ([⟨1, StatusType.PENDING, 0⟩, ⟨2, StatusType.RUNNING, 5⟩] :
        List JobStatusEntry).length) ∧
      renderHistoryPanel false
          (some [⟨1, StatusType.PENDING, 0⟩, ⟨2, StatusType.RUNNING, 5⟩]) =
        HistoryPanel.entries [⟨2, StatusType.RUNNING, 5⟩] :=
  ⟨by decide,
   (jobCard_history_panel [⟨1, StatusType.PENDING, 0⟩, ⟨2, StatusType.RUNNING, 5⟩]).2.1
     (by decide)⟩

/-! ## API layer (`api/jobs.ts`): response handling -/

/-- The JSON value obtained from `res.json()`, viewed through the two field
lookups the client performs (`body?.error` and `body?.detail`).  The generic
parameter `T` of `handleResponse<T>` is a compile-time cast only
(`res.json() as Promise<T>` performs no runtime validation), so the body is
returned unchanged on success. -/
structure JsBody where
  error : Option String
  detail : Option String
deriving DecidableEq, Repr

/-- An HTTP response as seen by the client: the status code and the result
of `res.json()` (`none` when the body is not valid JSON, in which case the
`.catch(() => null)` in the error path yields `null`). -/
structure ApiResponse where
  status : Nat
  body : Option JsBody
deriving DecidableEq, Repr

/-- `Response.ok` of the Fetch API: status in the inclusive range 200–299. -/
def responseOk (r : ApiResponse) : Bool :=
  200 ≤ r.status && r.status < 300

/-- `body?.error ?? body?.detail ?? fallback` from `handleResponse` and
`deleteJob`. -/
def errorMessageOf (r : ApiResponse) (fallback : String) : String :=
  match r.body with
  | none => fallback
  | some b =>
      match b.error with
      | some e => e
      | none =>
          match b.detail with
          | some d => d
          | none => fallback

/-- `handleResponse` from `api/jobs.ts`: on a non-2xx response throw an
`Error` whose message is taken from the body (`error`, then `detail`, then a
generic message naming the status); on a 2xx response resolve with the
parsed JSON body.  The `none`-body 2xx case models the platform rejection of
`res.json()` on an unparsable body. -/
def handleResponse (r : ApiResponse) : Except String JsBody :=
  if responseOk r then
    match r.body with
    | some b => Except.ok b
    | none => Except.error "SyntaxError: unparsable response body"
  else
    Except.error (errorMessageOf r ("Request failed with status " ++ toString r.status))

/-- `deleteJob`'s response handling from `api/jobs.ts`: a 2xx (204) response
resolves with no value and never reads the body; a non-2xx response throws
with the same message priority and a delete-specific fallback. -/
def deleteJobResult (r : ApiResponse) : Except String Unit :=
  if responseOk r then Except.ok ()
  else
    Except.error (errorMessageOf r ("Delete failed with status " ++ toString r.status))

/-- C8: for every API response whose 2xx body is valid JSON, the client
promise rejects iff the response is non-2xx (`res.ok` false); on rejection
the message is `body.error` when present, else `body.detail` when present,
else a generic message containing the status code; on a 2xx response the
promise resolves with the parsed body (with no value for delete, which
never parses the body).  Failures are surfaced, never swallowed. -/
theorem apiClient_error_surfacing (r : ApiResponse)
    (hparse : responseOk r = true → r.body.isSome) :
    ((handleResponse r).isOk ↔ responseOk r = true) ∧
    ((deleteJobResult r).isOk ↔ responseOk r = true) ∧
    (responseOk r = false →
      (∀ b e, r.body = some b → b.error = some e →
        handleResponse r = Except.error e ∧ deleteJobResult r = Except.error e) ∧
      (∀ b d, r.body = some b → b.error = none → b.detail = some d →
        handleResponse r = Except.error d ∧ deleteJobResult r = Except.error d) ∧
      ((r.body = none ∨ r.body = some ⟨none, none⟩) →
        handleResponse r =
            Except.error ("Request failed with status " ++ toString r.status) ∧
          deleteJobResult r =
            Except.error ("Delete failed with status " ++ toString r.status))) ∧
    (responseOk r = true → ∀ b, r.body = some b → handleResponse r = Except.ok b) := by
  refine ⟨?_, ?_, ?_, ?_⟩
  · by_cases hok : responseOk r = true
    · rcases Option.isSome_iff_exists.mp (hparse hok) with ⟨b, hb⟩
      simp [handleResponse, hok, hb, Except.isOk, Except.toBool]
    · simp [handleResponse, hok, Except.isOk, Except.toBool]
  · by_cases hok : responseOk r = true
    · simp [deleteJobResult, hok, Except.isOk, Except.toBool]
    · simp [deleteJobResult, hok, Except.isOk, Except.toBool]
  · intro hok
    have hok2 : ¬ responseOk r = true := by simp [hok]
    refine ⟨?_, ?_, ?_⟩
    · intro b e hb he
      simp [handleResponse, deleteJobResult, hok2, errorMessageOf, hb, he]
    · intro b d hb he hd
      simp [handleResponse, deleteJobResult, hok2, errorMessageOf, hb, he, hd]
    · rintro (hb | hb) <;>
        simp [handleResponse, deleteJobResult, hok2, errorMessageOf, hb]
  · intro hok b hb
    simp [handleResponse, hok, hb]

/-- Witness for C8: a 404 whose body carries `detail` rejects with that
message; a 201 with a JSON body resolves. -/
theorem apiClient_error_surfacing_witness :
    (responseOk ⟨404, some ⟨none, some "Not found."⟩⟩ = true →
        (⟨404, some ⟨none, some "Not found."⟩⟩ : ApiResponse).body.isSome) ∧
      handleResponse ⟨404, some ⟨none, some "Not found."⟩⟩ =
        Except.error "Not found." ∧
      (handleResponse ⟨201, some ⟨none, none⟩⟩).isOk = true :=
  ⟨by decide,
   (((apiClient_error_surfacing ⟨404, some ⟨none, some "Not found."⟩⟩
        (by decide)).2.2.1 (by decide)).2.1 ⟨none, some "Not found."⟩ "Not found."
      rfl rfl rfl).1,
   ((apiClient_error_surfacing ⟨201, some ⟨none, none⟩⟩ (by decide)).1).mpr
     (by decide)⟩

/-! ## Shared QueryClient configuration (`App.tsx`) and retry policy -/

/-- The `QueryClient` default options set in `App.tsx`
(`queries: { retry: 1, staleTime: 30_000 }`; no mutation defaults are set,
and TanStack Query's documented default for mutations is `retry: 0`). -/
structure QueryClientConfig where
  queriesRetry : Nat
  queriesStaleTime : Nat
  mutationsRetry : Nat
deriving DecidableEq, Repr

/-- The shared `queryClient` from `App.tsx`. -/
def queryClient : QueryClientConfig :=
  { queriesRetry := 1, queriesStaleTime := 30000, mutationsRetry := 0 }

/-- TanStack Query's retry loop: attempt `op` (attempt indices `0, 1, …`);
on failure retry while budget remains.  Returns the settled result and the
number of attempts performed. -/
def runWithRetry (op : Nat → Except String α) : Nat → Nat → Except String α × Nat
  | 0, i => (op i, i + 1)
  | budget + 1, i =>
      match op i with
      | Except.ok a => (Except.ok a, i + 1)
      | Except.error _ => runWithRetry op budget (i + 1)

/-- A query fetch under the shared client: `retry: 1`. -/
def runQueryFetch (op : Nat → Except String α) : Except String α × Nat :=
  runWithRetry op queryClient.queriesRetry 0

/-- A mutation under the shared client: no retry configured (default 0). -/
def runMutation (op : Nat → Except String α) : Except String α × Nat :=
  runWithRetry op queryClient.mutationsRetry 0

/-- C7: failed list/history fetches are retried exactly once before the
error is surfaced (two attempts in total), while mutations are never retried
(one attempt); the shared `QueryClient` sets `retry: 1` for queries only and
leaves mutations at the no-retry default. -/
theorem queryClient_retry_policy (e : String) (op : Nat → Except String α)
    (hfail : ∀ i, op i = Except.error e) :
    queryClient.queriesRetry = 1 ∧
    queryClient.mutationsRetry = 0 ∧
    runQueryFetch op = (Except.error e, 2) ∧
    runMutation op = (Except.error e, 1) := by
  refine ⟨rfl, rfl, ?_, ?_⟩
  · show runWithRetry op 1 0 = (Except.error e, 2)
    rw [runWithRetry, hfail 0, runWithRetry, hfail 1]
  · show runWithRetry op 0 0 = (Except.error e, 1)
    rw [runWithRetry, hfail 0]

/-- Witness for C7: a network failure that rejects every attempt settles
after two query attempts and one mutation attempt. -/
theorem queryClient_retry_policy_witness :
    runQueryFetch (α := Unit) (fun _ => Except.error "Network error") =
        (Except.error "Network error", 2) ∧
      runMutation (α := Unit) (fun _ => Except.error "Network error") =
        (Except.error "Network error", 1) :=
  ⟨(queryClient_retry_policy "Network error" _ (fun _ => rfl)).2.2.1,
   (queryClient_retry_policy "Network error" _ (fun _ => rfl)).2.2.2⟩

/-! ## TanStack Query cache keys and invalidation -/

/-- One element of a TanStack Query key (the code uses strings such as
`'jobs'`, `'history'`, filter/sort values, and numeric job ids). -/
inductive KeyPart where
  | str (s : String)
  | num (n : Nat)
deriving DecidableEq, Repr

/-- A TanStack Query cache key. -/
abbrev QueryKey := List KeyPart

/-- TanStack Query's default (non-exact) key matching used by
`invalidateQueries({ queryKey })`: the given key must be an initial segment
of the query's key. -/
def keyMatches : QueryKey → QueryKey → Bool
  | [], _ => true
  | _ :: _, [] => false
  | p :: ps, q :: qs => p == q && keyMatches ps qs

/-- The query key of the job list for a given filter/sort
(`JobList.tsx`, `queryKey: ['jobs', filter, sort]`). -/
def jobsQueryKey (filter sort : String) : QueryKey :=
  [KeyPart.str "jobs", KeyPart.str filter, KeyPart.str sort]

/-- The query key of one job's history
(`JobCard.tsx`, `queryKey: ['jobs', job.id, 'history']`). -/
def historyQueryKey (id : Nat) : QueryKey :=
  [KeyPart.str "jobs", KeyPart.num id, KeyPart.str "history"]

/-- The query cache viewed as an association of keys to a freshness flag
(`true` = fresh, `false` = invalidated, so the next read refetches). -/
abbrev QueryCache := List (QueryKey × Bool)

/-- `queryClient.invalidateQueries({ queryKey })`: mark every cached query
whose key matches (by prefix) as stale. -/
def invalidateQueries (qk : QueryKey) (c : QueryCache) : QueryCache :=
  c.map (fun e => if keyMatches qk e.1 then (e.1, false) else e)

/-- `CreateJobForm.tsx` `mutation.onSuccess`:
`queryClient.invalidateQueries({ queryKey: ['jobs'] })`. -/
def createJobOnSuccess (c : QueryCache) : QueryCache :=
  invalidateQueries [KeyPart.str "jobs"] c

/-- `JobCard.tsx` `updateMutation.onSuccess`:
`queryClient.invalidateQueries({ queryKey: ['jobs'] })`. -/
def updateStatusOnSuccess (c : QueryCache) : QueryCache :=
  invalidateQueries [KeyPart.str "jobs"] c

/-- `JobCard.tsx` `deleteMutation.onSuccess`:
`queryClient.invalidateQueries({ queryKey: ['jobs'] })`. -/
def deleteJobOnSuccess (c : QueryCache) : QueryCache :=
  invalidateQueries [KeyPart.str "jobs"] c

/-- `initialPageParam: 1` from `JobList.tsx`: an invalidated infinite query
refetches starting at page 1, never by patching stale pages in place. -/
def initialPageParam : Nat := 1

/-- C4: after every successful mutation (create, status update, delete),
every cached key with prefix `['jobs']` — in particular every job-list key
`['jobs', filter, sort]` and every per-job history key
`['jobs', id, 'history']` — is marked stale, and the next read of such a key
refetches starting at page 1 (`initialPageParam`). -/
theorem mutations_invalidate_jobs_keys (c : QueryCache) (k : QueryKey) (fresh : Bool)
    (hmatch : keyMatches [KeyPart.str "jobs"] k = true)
    (hmem : (k, fresh) ∈ c) :
    (k, false) ∈ createJobOnSuccess c ∧
    (k, false) ∈ updateStatusOnSuccess c ∧
    (k, false) ∈ deleteJobOnSuccess c ∧
    (∀ f s, keyMatches [KeyPart.str "jobs"] (jobsQueryKey f s) = true) ∧
    (∀ id, keyMatches [KeyPart.str "jobs"] (historyQueryKey id) = true) ∧
    initialPageParam = 1 := by
  have hinv : (k, false) ∈ invalidateQueries [KeyPart.str "jobs"] c := by
    have : (fun e => if keyMatches [KeyPart.str "jobs"] e.1 then (e.1, false) else e)
        (k, fresh) = (k, false) := by
      simp [hmatch]
    exact this ▸ List.mem_map_of_mem _ hmem
  exact ⟨hinv, hinv, hinv, fun f s => rfl, fun id => rfl, rfl⟩

/-- Witness for C4: in a cache holding the RUNNING/newest list key and job
5's history key, a successful status update marks both stale. -/
theorem mutations_invalidate_jobs_keys_witness :
    (keyMatches [KeyPart.str "jobs"] (historyQueryKey 5) = true) ∧
      ((historyQueryKey 5, true) ∈
        ([(jobsQueryKey "RUNNING" "newest", true), (historyQueryKey 5, true)] :
          QueryCache)) ∧
      (historyQueryKey 5, false) ∈
        updateStatusOnSuccess
          [(jobsQueryKey "RUNNING" "newest", true), (historyQueryKey 5, true)] :=
  ⟨rfl, by decide,
   (mutations_invalidate_jobs_keys
      [(jobsQueryKey "RUNNING" "newest", true), (historyQueryKey 5, true)]
      (historyQueryKey 5) true rfl (by decide)).2.1⟩

/-! ## JobList pagination (`JobList.tsx`): `getNextPageParam` and Load More -/

/-- Split a character list at every occurrence of `sep` (the separators the
URL grammar needs are single characters: `?`, `&`, `=`). -/
def splitOnChar (sep : Char) : List Char → List (List Char)
  | [] => [[]]
  | c :: cs =>
      match splitOnChar sep cs with
      | [] => [[c]]
      | h :: t => if c = sep then [] :: h :: t else (c :: h) :: t

/-- The characters `?`, `&`, `=` of the URL grammar. -/
def qmark : Char := Char.ofNat 63

def amp : Char := Char.ofNat 38

def eqsign : Char := Char.ofNat 61

/-- The query-string portion of a URL (the part after the first `?`). -/
def queryStringOf (url : String) : List Char :=
  match splitOnChar qmark url.data with
  | _ :: q :: _ => q
  | _ => []

/-- `new URL(url).searchParams.get(k)`: the first value bound to `k` in the
query string, or null. -/
def searchParamsGet (url k : String) : Option String :=
  ((splitOnChar amp (queryStringOf url)).filterMap (fun kv =>
    match splitOnChar eqsign kv with
    | [k2, v] => if String.mk k2 = k then some (String.mk v) else none
    | _ => none)).head?

/-- The value of a non-empty string of decimal digits, or `none`. -/
def decDigitsVal (l : List Char) : Option Nat :=
  match l with
  | [] => none
  | _ =>
      l.foldl
        (fun acc c =>
          match acc with
          | none => none
          | some n => if c.isDigit then some (n * 10 + (c.toNat - 48)) else none)
        (some 0)

/-- JavaScript `Number(...)` applied to `searchParams.get('page')` for the
URLs the backend emits: `Number(null) = 0`, and a decimal numeral maps to
its value. -/
def jsNumberOfPageParam (v : Option String) : Nat :=
  match v with
  | none => 0
  | some s => (decDigitsVal s.data).getD 0

/-- `getNextPageParam` from `JobList.tsx`: `undefined` (= `none`) exactly
when `lastPage.next` is null — which makes `hasNextPage` false — otherwise
the page number extracted from the `next` URL. -/
def getNextPageParam (lastPage : PaginatedResponse) : Option Nat :=
  match lastPage.next with
  | none => none
  | some url => some (jsNumberOfPageParam (searchParamsGet url "page"))

/-- `hasNextPage` as derived by `useInfiniteQuery` from the last fetched
page: false iff `getNextPageParam` returned `undefined`. -/
def hasNextPageOf (pages : List PaginatedResponse) : Bool :=
  match pages.getLast? with
  | none => false
  | some lp => (getNextPageParam lp).isSome

/-- `JobList.tsx` line 440: the Load More button is rendered only under
`{hasNextPage && …}`, and is disabled while `isFetchingNextPage`. -/
def loadMoreRendered (hasNext : Bool) : Bool := hasNext

/-- The merged job sequence shown to the user
(`data?.pages.flatMap((page) => page.results) ?? []`). -/
def mergedJobs (pages : List PaginatedResponse) : List Job :=
  pages.flatMap (fun p => p.results)

/-- `fetchNextPage()`: fetch the page whose number `getNextPageParam`
extracted from the last page's `next` URL, and append the response to the
page list; a no-op when there is no next page.  `serve` is the network. -/
def fetchNextPage (serve : Nat → PaginatedResponse) (pages : List PaginatedResponse) :
    List PaginatedResponse :=
  match pages.getLast? with
  | none => pages
  | some lp =>
      match getNextPageParam lp with
      | none => pages
      | some p => pages ++ [serve p]

theorem getLast?_concat2 (ps : List PaginatedResponse) (lp : PaginatedResponse) :
    (ps ++ [lp]).getLast? = some lp := by
  induction ps with
  | nil => rfl
  | cons p ps ih =>
      rw [List.cons_append, List.getLast?_cons]
      simp [ih]

/-- C6: with pages `ps ++ [lp]` merged, the Load More control is rendered
(and enabled when not already fetching) exactly when `lp.next` is non-null
— `getNextPageParam` returns `undefined` exactly when `next` is null — and
triggering it appends the page numbered by the `page` parameter of the
`next` URL to the end of the merged sequence, preserving the order of all
previously merged pages. -/
theorem loadMore_appends_next_page (serve : Nat → PaginatedResponse)
    (ps : List PaginatedResponse) (lp : PaginatedResponse) :
    (hasNextPageOf (ps ++ [lp]) = lp.next.isSome) ∧
    ((getNextPageParam lp = none) ↔ lp.next = none) ∧
    (loadMoreRendered (hasNextPageOf (ps ++ [lp])) = lp.next.isSome) ∧
    (∀ url, lp.next = some url →
      fetchNextPage serve (ps ++ [lp]) =
          (ps ++ [lp]) ++ [serve (jsNumberOfPageParam (searchParamsGet url "page"))] ∧
        mergedJobs (fetchNextPage serve (ps ++ [lp])) =
          mergedJobs (ps ++ [lp]) ++
            (serve (jsNumberOfPageParam (searchParamsGet url "page"))).results) ∧
    (lp.next = none → fetchNextPage serve (ps ++ [lp]) = ps ++ [lp]) := by
  have hlast := getLast?_concat2 ps lp
  refine ⟨?_, ?_, ?_, ?_, ?_⟩
  · rw [hasNextPageOf, hlast]
    cases h : lp.next <;> simp [getNextPageParam, h]
  · cases h : lp.next <;> simp [getNextPageParam, h]
  · rw [loadMoreRendered, hasNextPageOf, hlast]
    cases h : lp.next <;> simp [getNextPageParam, h]
  · intro url hurl
    constructor
    · rw [fetchNextPage, hlast]
      simp [getNextPageParam, hurl]
    · rw [fetchNextPage, hlast]
      simp [getNextPageParam, hurl, mergedJobs]
  · intro hnone
    rw [fetchNextPage, hlast]
    simp [getNextPageParam, hnone]

/-- Witness for C6: with a last page whose `next` URL names page 2, Load
More is shown and fetching appends page 2's results after the merged
sequence. -/
theorem loadMore_appends_next_page_witness :
    ((⟨3, some "http://backend:8000/api/jobs/?page=2&sort=newest", none,
          [⟨1, "A", 0, 0, some StatusType.PENDING⟩]⟩ :
        PaginatedResponse).next = some "http://backend:8000/api/jobs/?page=2&sort=newest") ∧
      mergedJobs
          (fetchNextPage
            (fun p => ⟨3, none, none, [⟨100 + p, "B", 0, 0, some StatusType.RUNNING⟩]⟩)
            ([] ++ [⟨3, some "http://backend:8000/api/jobs/?page=2&sort=newest", none,
              [⟨1, "A", 0, 0, some StatusType.PENDING⟩]⟩])) =
        [⟨1, "A", 0, 0, some StatusType.PENDING⟩,
         ⟨102, "B", 0, 0, some StatusType.RUNNING⟩] :=
  ⟨rfl, by
    have h :=
      ((loadMore_appends_next_page
          (fun p => ⟨3, none, none, [⟨100 + p, "B", 0, 0, some StatusType.RUNNING⟩]⟩)
          []
          ⟨3, some "http://backend:8000/api/jobs/?page=2&sort=newest", none,
            [⟨1, "A", 0, 0, some StatusType.PENDING⟩]⟩).2.2.2.1
        "http://backend:8000/api/jobs/?page=2&sort=newest" rfl).2
    rw [h]
    decide⟩

/-! ## Client-side sort comparator (superseded `JobList` variant)

The repository also contains an earlier `JobList` variant (query key
`['jobs']`) that filters and sorts the already-loaded pages in memory.  Its
comparator is embedded here; the live variant delegates ordering to the
backend. -/

/-- The four sort values (`JobList.tsx`, `SortValue`). -/
inductive SortValue where
  | newest
  | oldest
  | name_asc
  | name_desc
deriving DecidableEq, Repr

/-- The sign contract of `a.localeCompare(b)`, instantiated with code-point
order (the spec leaves the collation choice open: case-sensitive order is
the documented pick here). -/
def strCmpInt (a b : String) : Int :=
  if a < b then -1 else if b < a then 1 else 0

/-- The comparator passed to `Array.prototype.sort` by the client-side
`JobList` variant (`[...filtered].sort((a, b) => …)`): `oldest` by
`created_at` difference, `name_asc`/`name_desc` by `localeCompare`, default
(`newest`) by reversed `created_at` difference.  No tie-break of any kind is
applied. -/
def jsCompare : SortValue → Job → Job → Int
  | SortValue.oldest, a, b => a.created_at - b.created_at
  | SortValue.name_asc, a, b => strCmpInt a.name b.name
  | SortValue.name_desc, a, b => strCmpInt b.name a.name
  | SortValue.newest, a, b => b.created_at - a.created_at

/-- `[...filtered].sort(comparator)`.  `Array.prototype.sort` is stable
(ECMAScript 2019) and the comparator is consistent, which determines the
output uniquely; a stable insertion sort realises it. -/
def sortJobs (v : SortValue) (jobs : List Job) : List Job :=
  List.insertionSort (fun a b => jsCompare v a b ≤ 0) jobs

/-- The non-strict order on the chosen sort key that the comparator
realises. -/
def sortKeyLe : SortValue → Job → Job → Prop
  | SortValue.newest, a, b => b.created_at ≤ a.created_at
  | SortValue.oldest, a, b => a.created_at ≤ b.created_at
  | SortValue.name_asc, a, b => a.name ≤ b.name
  | SortValue.name_desc, a, b => b.name ≤ a.name

theorem strCmpInt_nonpos_iff (a b : String) : strCmpInt a b ≤ 0 ↔ a ≤ b := by
  unfold strCmpInt
  split_ifs with h1 h2
  · exact iff_of_true (by norm_num) (le_of_lt h1)
  · exact iff_of_false (by norm_num) (not_le.mpr h2)
  · exact iff_of_true le_rfl (not_lt.mp h2)

theorem jsCompare_nonpos_iff (v : SortValue) (a b : Job) :
    jsCompare v a b ≤ 0 ↔ sortKeyLe v a b := by
  cases v
  · show b.created_at - a.created_at ≤ 0 ↔ b.created_at ≤ a.created_at
    omega
  · show a.created_at - b.created_at ≤ 0 ↔ a.created_at ≤ b.created_at
    omega
  · exact strCmpInt_nonpos_iff a.name b.name
  · exact strCmpInt_nonpos_iff b.name a.name

/-- C2 (amended): the client-side comparator orders by the documented keys —
`newest`/`oldest` by `created_at` descending/ascending, `name_asc`/
`name_desc` by name ascending/descending — but applies no `id` tie-break:
the sort is a permutation sorted under the key order only, and jobs with
equal keys keep their previously fetched relative order (stability), so the
displayed order is deterministic only relative to the fetch order. -/
theorem jobList_sort_order (v : SortValue) (jobs : List Job) :
    List.Perm (sortJobs v jobs) jobs ∧
    List.Sorted (sortKeyLe v) (sortJobs v jobs) ∧
    (∀ a b, jsCompare v a b ≤ 0 ↔ sortKeyLe v a b) := by
  have htot : ∀ a b : Job, jsCompare v a b ≤ 0 ∨ jsCompare v b a ≤ 0 := by
    intro a b
    rw [jsCompare_nonpos_iff, jsCompare_nonpos_iff]
    cases v <;> exact le_total _ _
  have htrans : ∀ a b c : Job,
      jsCompare v a b ≤ 0 → jsCompare v b c ≤ 0 → jsCompare v a c ≤ 0 := by
    intro a b c hab hbc
    rw [jsCompare_nonpos_iff] at hab hbc ⊢
    cases v
    · exact le_trans hbc hab
    · exact le_trans hab hbc
    · exact le_trans hab hbc
    · exact le_trans hbc hab
  refine ⟨List.perm_insertionSort _ jobs, ?_, fun a b => jsCompare_nonpos_iff v a b⟩
  haveI : IsTotal Job (fun a b => jsCompare v a b ≤ 0) := ⟨htot⟩
  haveI : IsTrans Job (fun a b => jsCompare v a b ≤ 0) := ⟨fun a b c => htrans a b c⟩
  have hs := List.sorted_insertionSort (fun a b => jsCompare v a b ≤ 0) jobs
  exact List.Pairwise.imp (fun hab => (jsCompare_nonpos_iff v _ _).mp hab) hs

/-- A FAILED job created in the same millisecond as another job: the two
compare equal under the `newest` key. -/
def tieJobA : Job := ⟨1, "Alpha", 1700000000000, 1700000000000, some StatusType.FAILED⟩

def tieJobB : Job := ⟨2, "Beta", 1700000000000, 1700000000000, some StatusType.RUNNING⟩

/-- Counterexample for C2 as stated: two jobs share a `created_at`
millisecond; fetched in the order `[B, A]` (ids `[2, 1]`), the `newest` sort
leaves them as `[B, A]` — the tie is not broken by `id` ascending, which
would require `[A, B]`. -/
theorem jobList_sort_no_id_tiebreak :
    jsCompare SortValue.newest tieJobA tieJobB = 0 ∧
    tieJobA.id < tieJobB.id ∧
    sortJobs SortValue.newest [tieJobB, tieJobA] = [tieJobB, tieJobA] ∧
    sortJobs SortValue.newest [tieJobB, tieJobA] ≠ [tieJobA, tieJobB] := by
  refine ⟨by decide, by decide, ?_, ?_⟩ <;> decide

/-! ## fetchJobs (`api/jobs.ts`) and the backend list endpoint

The live `JobList` variant passes `filter` and `sort` to `fetchJobs`, which
forwards them as query parameters so the backend filters and orders the full
dataset. -/

/-- The request `fetchJobs` issues. -/
structure Request where
  path : String
  params : List (String × String)
deriving DecidableEq, Repr

/-- First value bound to a key among the query parameters
(`URLSearchParams` lookup). -/
def paramValue (k : String) : List (String × String) → Option String
  | [] => none
  | (k2, v) :: rest => if k2 = k then some v else paramValue k rest

/-- `fetchJobs` from `api/jobs.ts`: `GET /api/jobs/?page=N&sort=…`, with
`status=filter` appended unless the filter is `ALL`
(`if (filter !== 'ALL') params.set('status', filter)`). -/
def fetchJobs (pageParam : Nat) (filter sort : String) : Request :=
  { path := "/api/jobs/"
    params := [("page", toString pageParam), ("sort", sort)] ++
      (if filter ≠ "ALL" then [("status", filter)] else []) }

/-- Whether a job's current status equals the wire value of the `status`
query parameter. -/
def currentStatusMatches (j : Job) (s : String) : Bool :=
  match j.current_status with
  | some st => statusKey st == s
  | none => false

/-- Modelled from the spec: the Django backend's list endpoint is not under
`src/` (only its frontend callers and the README are).  Spec §4.4: when the
`status` parameter is present, only jobs whose *current* status equals it are
included, filtering the full dataset. -/
def serverApplyFilter (db : List Job) (statusParam : Option String) : List Job :=
  match statusParam with
  | none => db
  | some s => db.filter (fun j => currentStatusMatches j s)

/-- Modelled from the spec: the backend ordering (spec §4.4) — `newest`
(default)/`oldest` by `created_at` descending/ascending, `name_asc`/
`name_desc` by name, ties broken by `id` ascending. -/
def specLe (sort : String) (a b : Job) : Prop :=
  match sort with
  | "oldest" => a.created_at < b.created_at ∨ (a.created_at = b.created_at ∧ a.id ≤ b.id)
  | "name_asc" => a.name < b.name ∨ (a.name = b.name ∧ a.id ≤ b.id)
  | "name_desc" => b.name < a.name ∨ (a.name = b.name ∧ a.id ≤ b.id)
  | _ => b.created_at < a.created_at ∨ (a.created_at = b.created_at ∧ a.id ≤ b.id)

instance (sort : String) (a b : Job) : Decidable (specLe sort a b) := by
  unfold specLe
  split <;> infer_instance

/-- Modelled from the spec: the backend sorts the filtered dataset under
`specLe`. -/
def serverSortJobs (sort : String) (db : List Job) : List Job :=
  List.insertionSort (specLe sort) db

/-- `page_size = 20` (README / spec §4.4). -/
def PAGE_SIZE : Nat := 20

/-- Modelled from the spec: server-side page-based pagination — the
filtered, sorted dataset cut into consecutive pages of `PAGE_SIZE`. -/
def chunksOf20 : List Job → List (List Job)
  | [] => []
  | x :: xs => ((x :: xs).take PAGE_SIZE) :: chunksOf20 ((x :: xs).drop PAGE_SIZE)
termination_by l => l.length
decreasing_by
  simp [List.length_drop, PAGE_SIZE]
  omega

/-- Modelled from the spec: the full sequence of pages the backend serves
for a given `status` parameter and sort. -/
def serverListPages (db : List Job) (statusParam : Option String) (sort : String) :
    List (List Job) :=
  chunksOf20 (serverSortJobs sort (serverApplyFilter db statusParam))

theorem chunksOf20_flatten : ∀ l : List Job, (chunksOf20 l).flatten = l
  | [] => by simp [chunksOf20]
  | x :: xs => by
      rw [chunksOf20, List.flatten_cons, chunksOf20_flatten ((x :: xs).drop PAGE_SIZE)]
      exact List.take_append_drop PAGE_SIZE (x :: xs)
termination_by l => l.length
decreasing_by
  simp [List.length_drop, PAGE_SIZE]
  omega

/-- C1: for every filter value other than `ALL`, `fetchJobs` sends the
filter as the `status` query parameter, and the jobs delivered across all
pages of the backend's response are exactly the jobs of the full dataset
whose current status equals the filter — never a subset determined by which
pages the client had already fetched.  Every individual page is sound: each
job on it matches the filter. -/
theorem filter_uses_full_dataset (db : List Job) (page : Nat) (filter sort : String)
    (hne : filter ≠ "ALL") :
    (paramValue "status" (fetchJobs page filter sort).params = some filter) ∧
    (∀ j, j ∈ (serverListPages db
        (paramValue "status" (fetchJobs page filter sort).params) sort).flatten ↔
      j ∈ db ∧ currentStatusMatches j filter = true) ∧
    (∀ pg, pg ∈ serverListPages db (some filter) sort →
      ∀ j, j ∈ pg → currentStatusMatches j filter = true) := by
  have hlookup : paramValue "status" (fetchJobs page filter sort).params = some filter := by
    simp [fetchJobs, hne, paramValue]
  have hmem : ∀ j, j ∈ (serverListPages db (some filter) sort).flatten ↔
      j ∈ db ∧ currentStatusMatches j filter = true := by
    intro j
    rw [serverListPages, chunksOf20_flatten, serverSortJobs,
      (List.perm_insertionSort (specLe sort) _).mem_iff, serverApplyFilter,
      List.mem_filter]
  refine ⟨hlookup, ?_, ?_⟩
  · rw [hlookup]
    exact hmem
  · intro pg hpg j hj
    have : j ∈ (serverListPages db (some filter) sort).flatten :=
      List.mem_flatten.mpr ⟨pg, hpg, hj⟩
    exact ((hmem j).mp this).2

/-- A dataset for the C1 witness: job 1 currently RUNNING, job 2 currently
FAILED (RUNNING may well appear in job 2's history; only the current status
counts). -/
def dbRunning : Job := ⟨1, "A", 10, 10, some StatusType.RUNNING⟩

def dbFailed : Job := ⟨2, "X", 20, 20, some StatusType.FAILED⟩

/-- Witness for C1: filtering by `RUNNING` sends `status=RUNNING` and the
served pages contain job 1 and not job 2. -/
theorem filter_uses_full_dataset_witness :
    ("RUNNING" : String) ≠ "ALL" ∧
      paramValue "status" (fetchJobs 1 "RUNNING" "newest").params = some "RUNNING" ∧
      dbRunning ∈ (serverListPages [dbRunning, dbFailed] (some "RUNNING") "newest").flatten ∧
      dbFailed ∉ (serverListPages [dbRunning, dbFailed] (some "RUNNING") "newest").flatten := by
  have h := filter_uses_full_dataset [dbRunning, dbFailed] 1 "RUNNING" "newest" (by decide)
  refine ⟨by decide, h.1, ?_, ?_⟩
  · rw [h.1] at h
    exact (h.2.1 dbRunning).mpr ⟨by decide, by decide⟩
  · rw [h.1] at h
    intro hmem
    exact absurd ((h.2.1 dbFailed).mp hmem).2 (by decide)

/-! ## JobList cache keyed by (filter, sort) (`JobList.tsx`)

The live `JobList` variant keys the infinite query by
`['jobs', filter, sort]` and closes `queryFn` over the same component state
(`queryFn: ({ pageParam }) => fetchJobs({ pageParam, filter, sort })`), so
every page stored under a key was fetched with that key's parameters. -/

/-- One page stored in the infinite-query cache, together with the
arguments the `queryFn` closure passed to `fetchJobs` when it was fetched. -/
structure PageFetch where
  pageParam : Nat
  filterArg : String
  sortArg : String
  response : PaginatedResponse
deriving DecidableEq, Repr

/-- The `JobList` client state: the `filter`/`sort` component state
(`useState` defaults `'ALL'` and `'newest'`) and the shared infinite-query
cache, keyed by query key. -/
structure ClientState where
  filter : String
  sort : String
  cache : List (QueryKey × List PageFetch)
deriving DecidableEq, Repr

/-- Association lookup in the cache. -/
def assocFind : List (QueryKey × List PageFetch) → QueryKey → Option (List PageFetch)
  | [], _ => none
  | (k2, v) :: rest, k => if k2 = k then some v else assocFind rest k

/-- Insert or replace the pages stored under a key. -/
def upsert : List (QueryKey × List PageFetch) → QueryKey → List PageFetch →
    List (QueryKey × List PageFetch)
  | [], k, v => [(k, v)]
  | (k2, v2) :: rest, k, v =>
      if k2 = k then (k, v) :: rest else (k2, v2) :: upsert rest k v

/-- The key the component currently reads (`['jobs', filter, sort]`). -/
def activeKey (st : ClientState) : QueryKey := jobsQueryKey st.filter st.sort

/-- The pages merged under a key (none fetched yet ⇒ empty). -/
def cachedPages (st : ClientState) (k : QueryKey) : List PageFetch :=
  (assocFind st.cache k).getD []

/-- The job list presented to the user:
`data?.pages.flatMap((page) => page.results) ?? []` for the active key. -/
def displayedJobs (st : ClientState) : List Job :=
  (cachedPages st (activeKey st)).flatMap (fun pf => pf.response.results)

/-- The page parameter of the next fetch for a key: `initialPageParam` (1)
when nothing is cached, otherwise `getNextPageParam` of the last page. -/
def nextFetchParam (pages : List PageFetch) : Option Nat :=
  match pages.getLast? with
  | none => some initialPageParam
  | some pf => getNextPageParam pf.response

/-- The transitions of the `JobList` view: changing the filter tab, changing
the sort dropdown, and fetching a page for the active key (initial load or
Load More).  `serve` is the network: the response to
`fetchJobs({ pageParam, filter, sort })`. -/
inductive Step (serve : Nat → String → String → PaginatedResponse) :
    ClientState → ClientState → Prop where
  | setFilter (st : ClientState) (f : String) :
      Step serve st { st with filter := f }
  | setSort (st : ClientState) (s : String) :
      Step serve st { st with sort := s }
  | fetchPage (st : ClientState) (p : Nat)
      (h : nextFetchParam (cachedPages st (activeKey st)) = some p) :
      Step serve st
        { st with
          cache := upsert st.cache (activeKey st)
            (cachedPages st (activeKey st) ++
              [⟨p, st.filter, st.sort, serve p st.filter st.sort⟩]) }

/-- States reachable from the initial render
(`useState('ALL')`, `useState('newest')`, empty cache). -/
inductive Reachable (serve : Nat → String → String → PaginatedResponse) :
    ClientState → Prop where
  | init : Reachable serve ⟨"ALL", "newest", []⟩
  | step {st st2 : ClientState} :
      Reachable serve st → Step serve st st2 → Reachable serve st2

theorem jobsQueryKey_inj {f s f2 s2 : String}
    (h : jobsQueryKey f s = jobsQueryKey f2 s2) : f = f2 ∧ s = s2 := by
  simpa [jobsQueryKey] using h

theorem assocFind_upsert_self (c : List (QueryKey × List PageFetch)) (k : QueryKey)
    (v : List PageFetch) : assocFind (upsert c k v) k = some v := by
  induction c with
  | nil => simp [upsert, assocFind]
  | cons e rest ih =>
      by_cases h : e.1 = k
      · simp [upsert, assocFind, h]
      · simp [upsert, assocFind, h, ih]

theorem assocFind_upsert_ne (c : List (QueryKey × List PageFetch)) (k k2 : QueryKey)
    (v : List PageFetch) (h : k2 ≠ k) :
    assocFind (upsert c k v) k2 = assocFind c k2 := by
  have hkne : ¬ k = k2 := fun he => h he.symm
  induction c with
  | nil => simp [upsert, assocFind, hkne]
  | cons e rest ih =>
      obtain ⟨k3, v3⟩ := e
      by_cases he : k3 = k
      · subst he
        simp [upsert, assocFind, hkne]
      · by_cases he2 : k3 = k2 <;> simp [upsert, assocFind, he, he2, ih, h]

/-- Every page cached under key `['jobs', f, s]` was fetched by the
`queryFn` closure with exactly that filter and sort. -/
def CacheFaithful (serve : Nat → String → String → PaginatedResponse)
    (st : ClientState) : Prop :=
  ∀ f s pf, pf ∈ cachedPages st (jobsQueryKey f s) →
    pf.filterArg = f ∧ pf.sortArg = s ∧ pf.response = serve pf.pageParam f s

theorem reachable_cacheFaithful (serve : Nat → String → String → PaginatedResponse)
    (st : ClientState) (h : Reachable serve st) : CacheFaithful serve st := by
  induction h with
  | init =>
      intro f s pf hpf
      simp [cachedPages, assocFind] at hpf
  | @step st st2 hr hstep ih =>
      cases hstep with
      | setFilter f =>
          intro f2 s2 pf hpf
          exact ih f2 s2 pf hpf
      | setSort s =>
          intro f2 s2 pf hpf
          exact ih f2 s2 pf hpf
      | fetchPage p hp =>
          intro f2 s2 pf hpf
          by_cases hk : activeKey st = jobsQueryKey f2 s2
          · have hcp : cachedPages
                { st with
                  cache := upsert st.cache (activeKey st)
                    (cachedPages st (activeKey st) ++
                      [⟨p, st.filter, st.sort, serve p st.filter st.sort⟩]) }
                (jobsQueryKey f2 s2) =
                cachedPages st (activeKey st) ++
                  [⟨p, st.filter, st.sort, serve p st.filter st.sort⟩] := by
              rw [cachedPages, ← hk, assocFind_upsert_self]
              rfl
            rw [hcp] at hpf
            rcases List.mem_append.mp hpf with hold | hnew
            · refine ih f2 s2 pf ?_
              rw [hk] at hold
              exact hold
            · have hpfv : pf = ⟨p, st.filter, st.sort, serve p st.filter st.sort⟩ := by
                simpa using hnew
              obtain ⟨hf, hs⟩ := jobsQueryKey_inj hk
              subst hpfv
              exact ⟨hf, hs, by rw [← hf, ← hs]⟩
          · have hcp : cachedPages
                { st with
                  cache := upsert st.cache (activeKey st)
                    (cachedPages st (activeKey st) ++
                      [⟨p, st.filter, st.sort, serve p st.filter st.sort⟩]) }
                (jobsQueryKey f2 s2) = cachedPages st (jobsQueryKey f2 s2) := by
              rw [cachedPages, cachedPages,
                assocFind_upsert_ne _ _ _ _ (fun he => hk he.symm)]
              rfl
            rw [hcp] at hpf
            exact ih f2 s2 pf hpf

/-- C5: (i) distinct (filter, sort) pairs yield distinct cache keys, so
changing either changes the key under which pages are stored; (ii) in any
reachable state, every page merged under key `['jobs', f, s]` was fetched
with exactly filter `f` and sort `s` — the merged sequence never mixes pages
fetched under different parameters; (iii) switching to a (filter, sort) pair
that has no cache entry shows an empty view and fetches page 1
(`initialPageParam`), not any page of the old key; (iv) every displayed job
comes from a page fetched with the currently active filter and sort — no
item fetched under the old sort order leaks into the new one. -/
theorem filter_sort_key_isolation (serve : Nat → String → String → PaginatedResponse)
    (st : ClientState) (hst : Reachable serve st) (f s f2 s2 : String) :
    ((f, s) ≠ (f2, s2) → jobsQueryKey f s ≠ jobsQueryKey f2 s2) ∧
    (∀ pf, pf ∈ cachedPages st (jobsQueryKey f s) →
      pf.filterArg = f ∧ pf.sortArg = s ∧ pf.response = serve pf.pageParam f s) ∧
    (assocFind st.cache (jobsQueryKey f st.sort) = none →
      displayedJobs { st with filter := f } = [] ∧
        nextFetchParam (cachedPages { st with filter := f }
          (activeKey { st with filter := f })) = some 1) ∧
    (∀ j, j ∈ displayedJobs st → ∃ pf, pf ∈ cachedPages st (activeKey st) ∧
      pf.filterArg = st.filter ∧ pf.sortArg = st.sort ∧ j ∈ pf.response.results) := by
  have hfaith := reachable_cacheFaithful serve st hst
  refine ⟨?_, fun pf hpf => hfaith f s pf hpf, ?_, ?_⟩
  · intro hne he
    exact hne (by
      obtain ⟨h1, h2⟩ := jobsQueryKey_inj he
      rw [h1, h2])
  · intro hnone
    have hck : cachedPages { st with filter := f }
        (activeKey { st with filter := f }) = [] := by
      show (assocFind st.cache (jobsQueryKey f st.sort)).getD [] = []
      rw [hnone]
      rfl
    refine ⟨?_, ?_⟩
    · rw [displayedJobs, hck]
      rfl
    · rw [hck]
      rfl
  · intro j hj
    rw [displayedJobs, List.mem_flatMap] at hj
    obtain ⟨pf, hpf, hjr⟩ := hj
    exact ⟨pf, hpf, (hfaith st.filter st.sort pf hpf).1, (hfaith st.filter st.sort pf hpf).2.1, hjr⟩

/-- Witness for C5: from the initial state, the filter/sort pair
(`RUNNING`, `newest`) has a distinct key from (`ALL`, `newest`); switching
the filter to `RUNNING` shows an empty list and fetches page 1. -/
theorem filter_sort_key_isolation_witness :
    jobsQueryKey "RUNNING" "newest" ≠ jobsQueryKey "ALL" "newest" ∧
      displayedJobs ⟨"RUNNING", "newest", []⟩ = [] ∧
      nextFetchParam (cachedPages ⟨"RUNNING", "newest", []⟩
        (activeKey ⟨"RUNNING", "newest", []⟩)) = some 1 := by
  have h := filter_sort_key_isolation (fun _ _ _ => ⟨0, none, none, []⟩)
    ⟨"ALL", "newest", []⟩ Reachable.init "RUNNING" "newest" "ALL" "newest"
  exact ⟨h.1 (by decide), (h.2.2.1 rfl).1, (h.2.2.1 rfl).2⟩

end Rescale
